import Mathlib

/-!
Shallow embedding of the table-rendering fragment of `back_test`:
`renderScanTable` (src/public/js/scanner/scanner_ui.js), `renderScanTable`
(src/unnamed/part_000) and `renderSummaryTable`
(src/public/js/backtester/backtester_ui.js).

Modelling conventions:
* A JavaScript metric value is `JSVal`: `undefined` (the property is absent /
  `undefined`), `null`, or a number.  JavaScript numbers are modelled by
  `JNum`: an exact rational for the finite case, plus `nan`, `inf`, `negInf`.
  Double-precision rounding of finite values is outside the model; the
  claims under study are about the decimal-formatting and rendering logic.
* `Number.prototype.toFixed(f)` is embedded by `toFixedRat` / `toFixedNum`
  following ECMA-262: `NaN ↦ "NaN"`, `±Infinity ↦ "±Infinity"`, and for a
  finite x a sign taken from x followed by the digits of the integer n
  minimising `|n / 10^f − |x||` (ties to the larger n, i.e. half away from
  zero).  The ECMA branch for `|x| ≥ 10^21` (plain `ToString`) is outside
  the model.
* Calling `.toFixed` on `null`/`undefined`, or calling a missing formatter,
  throws a `TypeError`; a formatter is therefore `JSVal → Option String`
  with `none` for a throw, and a renderer returns `Option Grid` (`none`
  when some cell's formatter throws, aborting the render).
* A table cell is modelled by its interpolated text content; the fixed
  surrounding HTML (`<td class=...>`, `data-sort-key` attributes) carries
  no per-cell information relevant to the claims and is abstracted away.
-/

/-- A JavaScript number: a finite value (modelled exactly as a rational),
`NaN`, `Infinity` or `-Infinity`. -/
inductive JNum where
  | fin (q : ℚ)
  | nan
  | inf
  | negInf
deriving DecidableEq, Repr

/-- A JavaScript value as stored in a data row's metric field:
absent/`undefined`, `null`, or a number. -/
inductive JSVal where
  | undefined
  | null
  | num (x : JNum)
deriving DecidableEq, Repr

/-- Is this JavaScript number finite? -/
def JNum.isFin : JNum → Bool
  | .fin _ => true
  | _ => false

/-- `ToNumber` coercion as applied by arithmetic and the global `isFinite`:
`undefined ↦ NaN`, `null ↦ 0`, numbers unchanged. -/
def jsToNumber : JSVal → JNum
  | .undefined => .nan
  | .null => .fin 0
  | .num x => x

/-- Multiplication of a JavaScript number by 100, as in `v * 100`:
finite values scale exactly; `NaN` and the infinities are absorbing.
The finite case is computed on the numerator so that it evaluates by
kernel reduction; `JNum.mul100_fin` proves it is the multiplication. -/
def JNum.mul100 : JNum → JNum
  | .fin q => .fin (Rat.divInt (q.num * 100) q.den)
  | .nan => .nan
  | .inf => .inf
  | .negInf => .negInf

/-- The global `isFinite(v)`: coerce with `ToNumber`, then test finiteness. -/
def jsIsFinite (v : JSVal) : Bool :=
  (jsToNumber v).isFin

/-- The character for a decimal digit `d < 10`. -/
def digitChar (d : ℕ) : Char :=
  Char.ofNat (48 + d)

/-- Fuel-driven base-10 digit rendering of a natural number
(most significant digit first); `fuel > n` suffices. -/
def natToDigitsAux : ℕ → ℕ → List Char
  | 0, _ => []
  | fuel + 1, n =>
    if n < 10 then [digitChar n]
    else natToDigitsAux fuel (n / 10) ++ [digitChar (n % 10)]

/-- Base-10 digit string of a natural number, most significant digit first. -/
def natToDigits (n : ℕ) : List Char :=
  natToDigitsAux (n + 1) n

/-- Left-pad a digit list with `'0'` to length at least `f`. -/
def padZeros (s : List Char) (f : ℕ) : List Char :=
  List.replicate (f - s.length) '0' ++ s

/-- Render the nonnegative fixed-point number `n / 10^f` with exactly `f`
digits after the decimal point (no point when `f = 0`). -/
def natFixedStr (n f : ℕ) : String :=
  if f = 0 then String.mk (natToDigits n)
  else
    String.mk (natToDigits (n / 10 ^ f)) ++ "." ++
      String.mk (padZeros (natToDigits (n % 10 ^ f)) f)

/-- The integer `⌊|x| * 10^f + 1/2⌋` that `toFixed(f)` renders: the integer
nearest to `|x| * 10^f`, ties rounded up (away from zero).  Computed on the
numerator and denominator of `x` so that it evaluates by kernel reduction;
`toFixedScaled_eq_floor` proves it equal to the floor expression. -/
def toFixedScaled (x : ℚ) (f : ℕ) : ℕ :=
  (x.num.natAbs * 10 ^ f * 2 + x.den) / (2 * x.den)

/-- `Number.prototype.toFixed(f)` on a finite value `x`, per ECMA-262:
a sign taken from `x` (also for values rounding to zero, as in `"-0.00"`),
then the digits of `⌊|x| * 10^f + 1/2⌋` with `f` of them after the point. -/
def toFixedRat (x : ℚ) (f : ℕ) : String :=
  (if x.num < 0 then "-" else "") ++ natFixedStr (toFixedScaled x f) f

/-- `Number.prototype.toFixed(f)` on any JavaScript number. -/
def toFixedNum (x : JNum) (f : ℕ) : String :=
  match x with
  | .fin q => toFixedRat q f
  | .nan => "NaN"
  | .inf => "Infinity"
  | .negInf => "-Infinity"

/-- `v.toFixed(f)` as a fallible call: on `null` or `undefined` the method
access throws (`none`); on a number it returns the ECMA string. -/
def jsToFixed (v : JSVal) (f : ℕ) : Option String :=
  match v with
  | .num x => some (toFixedNum x f)
  | _ => none

/-- `v => \x7b(v * 100).toFixed(2)\x7d%` — the `cagr`, `volatility` and `mdd`
formatter shared verbatim by all three source files. -/
def fmtPercent (v : JSVal) : Option String :=
  some (toFixedNum ((jsToNumber v).mul100) 2 ++ "%")

/-- `v => isFinite(v) ? v.toFixed(2) : 'N/A'` — the `sharpe_ratio` and
`sortino_ratio` formatter shared verbatim by all three source files. -/
def fmtFiniteRat2 (v : JSVal) : Option String :=
  if jsIsFinite v then jsToFixed v 2 else some "N/A"

/-- `v => v !== null ? v.toFixed(2) : 'N/A'` — the `beta` formatter shared
verbatim by all three source files. -/
def fmtBeta (v : JSVal) : Option String :=
  match v with
  | .null => some "N/A"
  | _ => jsToFixed v 2

/-- `v => v !== null ? \x7b(v * 100).toFixed(2)\x7d% : 'N/A'` — the `alpha`
formatter shared verbatim by all three source files. -/
def fmtAlpha (v : JSVal) : Option String :=
  match v with
  | .null => some "N/A"
  | _ => some (toFixedNum ((jsToNumber v).mul100) 2 ++ "%")

/-- `v => isFinite(v) ? v.toFixed(4) : 'N/A'` — the `custom_score` formatter
shared verbatim by all three source files. -/
def fmtCustomScore (v : JSVal) : Option String :=
  if jsIsFinite v then jsToFixed v 4 else some "N/A"

/-- The formatter table (`FMT` / `format` / `fmt`), identical in the three
source files: property lookup by metric key, `none` for a missing key. -/
def FMT (k : String) : Option (JSVal → Option String) :=
  if k = "cagr" then some fmtPercent
  else if k = "volatility" then some fmtPercent
  else if k = "mdd" then some fmtPercent
  else if k = "sharpe_ratio" then some fmtFiniteRat2
  else if k = "sortino_ratio" then some fmtFiniteRat2
  else if k = "beta" then some fmtBeta
  else if k = "alpha" then some fmtAlpha
  else if k = "custom_score" then some fmtCustomScore
  else none

/-- `FMT[k](v)`: looking up a missing formatter and calling it throws
(`none`); otherwise the formatter runs (which may itself throw). -/
def fmtApply (k : String) (v : JSVal) : Option String :=
  match FMT k with
  | some f => f v
  | none => none

/-- The values a data row can carry for the eight metric keys.  The JS rows
are plain objects; the renderers read exactly these eight properties (any
other property is irrelevant to them), with `undefined` for an absent one.
`sharpe` and `sortino` model the `sharpe_ratio` / `sortino_ratio` fields. -/
structure MetricVals where
  cagr : JSVal
  volatility : JSVal
  mdd : JSVal
  sharpe : JSVal
  sortino : JSVal
  beta : JSVal
  alpha : JSVal
  custom_score : JSVal
deriving DecidableEq, Repr

/-- Property access `r[k]` for a metric key `k` on a data row's metric
fields; any key outside the eight known ones reads as `undefined`. -/
def MetricVals.get (r : MetricVals) (k : String) : JSVal :=
  if k = "cagr" then r.cagr
  else if k = "volatility" then r.volatility
  else if k = "mdd" then r.mdd
  else if k = "sharpe_ratio" then r.sharpe
  else if k = "sortino_ratio" then r.sortino
  else if k = "beta" then r.beta
  else if k = "alpha" then r.alpha
  else if k = "custom_score" then r.custom_score
  else .undefined

/-- A scan-result row as read by the two `renderScanTable` functions:
a `ticker`, an optional `note` annotation, and the metric values. -/
structure ScanRow where
  ticker : String
  note : Option String
  vals : MetricVals
deriving DecidableEq, Repr

/-- A portfolio row as read by `renderSummaryTable`: a display `name`
and the metric values.  The optional benchmark has the same shape. -/
structure PortRow where
  name : String
  vals : MetricVals
deriving DecidableEq, Repr

/-- One metric definition: key into the data rows plus display label. -/
structure MetricDef where
  key : String
  label : String
deriving DecidableEq, Repr

/-- The `METRICS` / `metrics` list, identical in the three source files. -/
def METRICS : List MetricDef :=
  [⟨"cagr", "年化報酬率 (CAGR)"⟩,
   ⟨"volatility", "年化波動率"⟩,
   ⟨"mdd", "最大回撤 (MDD)"⟩,
   ⟨"sharpe_ratio", "夏普比率"⟩,
   ⟨"sortino_ratio", "索提諾比率"⟩,
   ⟨"beta", "Beta (β)"⟩,
   ⟨"alpha", "Alpha (α)"⟩,
   ⟨"custom_score", "自訂"⟩]

/-- A rendered table: the header cells and the body rows of cells, each
cell modelled by its text content. -/
structure Grid where
  header : List String
  rows : List (List String)
deriving DecidableEq, Repr

/-- Sequence a list of fallible cell computations: `none` (an exception in
some cell) aborts the whole render, as an uncaught throw does in JS. -/
def seqOpt {α : Type} : List (Option α) → Option (List α)
  | [] => some []
  | o :: os => o.bind (fun x => (seqOpt os).map (x :: ·))

/-- The scan-table header row: the fixed `"Ticker"` corner cell, then one
cell per metric label, in `METRICS` order (both `renderScanTable`s). -/
def scanHeader : List String :=
  "Ticker" :: METRICS.map (·.label)

/-- The label cell of a scan row: `$\x7br.ticker\x7d$\x7br.note || ''\x7d` —
the ticker with the note annotation appended directly, nothing if absent. -/
def scanLabel (r : ScanRow) : String :=
  r.ticker ++ (match r.note with | some s => s | none => "")

/-- One metric cell of a scan row:
`val !== undefined ? FMT[m.key](val) : '—'` — the em-dash placeholder for
an absent value (the formatter is not called), else the formatter. -/
def scanCell (r : ScanRow) (m : MetricDef) : Option String :=
  if r.vals.get m.key ≠ .undefined then fmtApply m.key (r.vals.get m.key)
  else some "—"

/-- One body row of the scan table: the label cell, then one cell per
metric in `METRICS` order. -/
def scanRowCells (r : ScanRow) : Option (List String) :=
  (seqOpt (METRICS.map (scanCell r))).map (scanLabel r :: ·)

/-- `renderScanTable(results)` from `scanner_ui.js`: the header row, then
one body row per result, in input order. -/
def renderScanTable (results : List ScanRow) : Option Grid :=
  (seqOpt (results.map scanRowCells)).map (fun rs => ⟨scanHeader, rs⟩)

/-- `renderScanTable(results)` from `unnamed/part_000`: its `metrics`,
`fmt`, thead and tbody passes coincide line for line with the
`scanner_ui.js` version, so its embedding has the same body. -/
def renderScanTableP0 (results : List ScanRow) : Option Grid :=
  (seqOpt (results.map scanRowCells)).map (fun rs => ⟨scanHeader, rs⟩)

/-- The summary-table header row (`renderSummaryTable`): the fixed `"指標"`
corner cell, one cell per portfolio name in input order, and the benchmark
name last when a benchmark is supplied. -/
def summaryHeader (data : List PortRow) (bench : Option PortRow) : List String :=
  "指標" :: (data.map (·.name) ++
    (match bench with | some b => [b.name] | none => []))

/-- One body cell of the summary table: `format[m.key](p[m.key])` — the
formatter is applied unconditionally to the looked-up value. -/
def summaryCell (m : MetricDef) (p : PortRow) : Option String :=
  fmtApply m.key (p.vals.get m.key)

/-- One body row of the summary table, for metric `m`: the label cell, one
cell per portfolio in input order, then the benchmark cell when present. -/
def summaryRowCells (data : List PortRow) (bench : Option PortRow)
    (m : MetricDef) : Option (List String) :=
  match seqOpt (data.map (summaryCell m)) with
  | none => none
  | some cs =>
    match bench with
    | none => some (m.label :: cs)
    | some b =>
      match summaryCell m b with
      | some c => some (m.label :: (cs ++ [c]))
      | none => none

/-- `renderSummaryTable(data, benchmark)` from `backtester_ui.js`: the
header row, then one body row per metric in `METRICS` order. -/
def renderSummaryTable (data : List PortRow) (bench : Option PortRow) :
    Option Grid :=
  (seqOpt (METRICS.map (summaryRowCells data bench))).map
    (fun rs => ⟨summaryHeader data bench, rs⟩)

/-- Metric values all equal to the number 1 — a fully populated row. -/
def valsOnes : MetricVals :=
  ⟨.num (.fin 1), .num (.fin 1), .num (.fin 1), .num (.fin 1),
   .num (.fin 1), .num (.fin 1), .num (.fin 1), .num (.fin 1)⟩

/-- Metric values with `cagr` absent (`undefined`) and the rest 1. -/
def valsNoCagr : MetricVals :=
  ⟨.undefined, .num (.fin 1), .num (.fin 1), .num (.fin 1),
   .num (.fin 1), .num (.fin 1), .num (.fin 1), .num (.fin 1)⟩

/-- A scan row with a note annotation. -/
def sRowNote : ScanRow := ⟨"SPY", some "*", valsOnes⟩

/-- A scan row with no note and an absent `cagr`. -/
def sRowNoCagr : ScanRow := ⟨"QQQ", none, valsNoCagr⟩

/-- A portfolio row with an absent `cagr`. -/
def pRowNoCagr : PortRow := ⟨"A", valsNoCagr⟩

/-- A fully populated portfolio row, usable as a benchmark. -/
def pRowOnes : PortRow := ⟨"BENCH", valsOnes⟩

/-- The grid `renderScanTable [sRowNote]` evaluates to. -/
def gScanNote : Grid :=
  ⟨scanHeader,
   [["SPY*", "100.00%", "100.00%", "100.00%", "1.00", "1.00", "1.00",
     "100.00%", "1.0000"]]⟩

/-- The grid `renderScanTable [sRowNoCagr]` evaluates to. -/
def gScanNoCagr : Grid :=
  ⟨scanHeader,
   [["QQQ", "—", "100.00%", "100.00%", "1.00", "1.00", "1.00",
     "100.00%", "1.0000"]]⟩

/-- The grid `renderSummaryTable [pRowNoCagr] (some pRowOnes)` evaluates to. -/
def gSummaryAB : Grid :=
  ⟨["指標", "A", "BENCH"],
   [["年化報酬率 (CAGR)", "NaN%", "100.00%"],
    ["年化波動率", "100.00%", "100.00%"],
    ["最大回撤 (MDD)", "100.00%", "100.00%"],
    ["夏普比率", "1.00", "1.00"],
    ["索提諾比率", "1.00", "1.00"],
    ["Beta (β)", "1.00", "1.00"],
    ["Alpha (α)", "100.00%", "100.00%"],
    ["自訂", "1.0000", "1.0000"]]⟩

/-- The numerator-level scaling in `JNum.mul100` is multiplication by 100. -/
theorem JNum.mul100_fin (q : ℚ) : JNum.mul100 (.fin q) = .fin (q * 100) := by
  show JNum.fin (Rat.divInt (q.num * 100) q.den) = JNum.fin (q * 100)
  congr 1
  rw [Rat.divInt_eq_div]
  push_cast
  rw [mul_div_right_comm, Rat.num_div_den]

/-- The integer-division form of `toFixedScaled` computes the ECMA
rounding `⌊|x| * 10^f + 1/2⌋`. -/
theorem toFixedScaled_eq_floor (x : ℚ) (f : ℕ) :
    (toFixedScaled x f : ℤ) = ⌊|x| * (10 : ℚ) ^ f + 1 / 2⌋ := by
  have hdpos : (0 : ℚ) < (x.den : ℚ) := by exact_mod_cast x.pos
  have habs : |x| = ((x.num.natAbs : ℤ) : ℚ) / (x.den : ℚ) := by
    conv_lhs => rw [← Rat.num_div_den x]
    rw [abs_div, abs_of_pos hdpos, ← Int.cast_abs, Int.abs_eq_natAbs]
  have hdne : (x.den : ℚ) ≠ 0 := ne_of_gt hdpos
  have h2dne : ((2 * x.den : ℕ) : ℚ) ≠ 0 := by
    exact_mod_cast Nat.mul_ne_zero two_ne_zero x.den_nz
  have harg : |x| * (10 : ℚ) ^ f + 1 / 2 =
      (((x.num.natAbs * 10 ^ f * 2 + x.den : ℕ) : ℤ) : ℚ) /
        ((2 * x.den : ℕ) : ℚ) := by
    rw [habs, div_mul_eq_mul_div,
      div_add_div _ _ hdne (by norm_num : (2 : ℚ) ≠ 0),
      div_eq_div_iff (by exact mul_ne_zero hdne (by norm_num)) h2dne]
    push_cast
    ring
  rw [harg, Rat.floor_intCast_div_natCast, toFixedScaled, Int.natCast_div]

/-- Rounding to the nearest integer by `⌊a + 1/2⌋` is within one half. -/
theorem floor_add_half_close (a : ℚ) : |(⌊a + 1 / 2⌋ : ℚ) - a| ≤ 1 / 2 := by
  have h1 := Int.floor_le (a + 1 / 2)
  have h2 := Int.sub_one_lt_floor (a + 1 / 2)
  rw [abs_le]
  constructor <;> [linarith; linarith]

example : (0.1534 : ℚ) = Rat.divInt 1534 10000 := by
  rw [Rat.divInt_eq_div]; norm_num
example : fmtApply "cagr" (.num (.fin (Rat.divInt 1534 10000))) = some "15.34%" := by decide
example : fmtApply "custom_score" (.num (.fin (Rat.divInt 123456 100000))) = some "1.2346" := by decide
example : fmtApply "sharpe_ratio" (.num .inf) = some "N/A" := by decide
example : fmtApply "beta" .null = some "N/A" := by decide
example : fmtApply "beta" (.num .nan) = some "NaN" := by decide
example : fmtApply "cagr" .undefined = some "NaN%" := by decide
example : fmtApply "beta" .undefined = none := by decide
example : fmtApply "sharpe_ratio" .null = none := by decide
example : toFixedRat (Rat.divInt (-1) 1000) 2 = "-0.00" := by decide
example : toFixedRat (Rat.divInt 1 1) 2 = "1.00" := by decide

/-- Unfolding of a successful `seqOpt` on a cons cell. -/
theorem seqOpt_cons_some {α : Type} {o : Option α} {os : List (Option α)}
    {xs : List α} (h : seqOpt (o :: os) = some xs) :
    ∃ x ys, o = some x ∧ seqOpt os = some ys ∧ xs = x :: ys := by
  cases o with
  | none => simp [seqOpt] at h
  | some x =>
    simp only [seqOpt, Option.some_bind] at h
    obtain ⟨ys, hos, hxs⟩ := Option.map_eq_some'.mp h
    exact ⟨x, ys, rfl, hos, hxs.symm⟩

/-- A successful `seqOpt` preserves the length. -/
theorem seqOpt_length {α : Type} :
    ∀ {l : List (Option α)} {xs : List α}, seqOpt l = some xs →
      xs.length = l.length := by
  intro l
  induction l with
  | nil =>
    intro xs h
    simp only [seqOpt, Option.some.injEq] at h
    subst h
    rfl
  | cons o os ih =>
    intro xs h
    obtain ⟨x, ys, _, hos, hxs⟩ := seqOpt_cons_some h
    subst hxs
    simp [ih hos]

/-- A successful `seqOpt` is the element-wise stripping of `some`. -/
theorem seqOpt_get {α : Type} :
    ∀ {l : List (Option α)} {xs : List α}, seqOpt l = some xs →
      ∀ i, l.get? i = (xs.get? i).map some := by
  intro l
  induction l with
  | nil =>
    intro xs h i
    simp only [seqOpt, Option.some.injEq] at h
    subst h
    simp
  | cons o os ih =>
    intro xs h i
    obtain ⟨x, ys, ho, hos, hxs⟩ := seqOpt_cons_some h
    subst hxs
    subst ho
    cases i with
    | zero => simp
    | succ n => simpa using ih hos n

/-- `seqOpt` distributes over list append. -/
theorem seqOpt_append {α : Type} :
    ∀ (l₁ l₂ : List (Option α)), seqOpt (l₁ ++ l₂) =
      (seqOpt l₁).bind (fun xs => (seqOpt l₂).map (xs ++ ·)) := by
  intro l₁ l₂
  induction l₁ with
  | nil =>
    cases h₂ : seqOpt l₂ <;> simp [seqOpt, h₂]
  | cons o os ih =>
    cases o with
    | none => simp [seqOpt]
    | some x =>
      cases hos : seqOpt os with
      | none =>
        have hil : seqOpt (os ++ l₂) = none := by rw [ih, hos]; rfl
        simp [seqOpt, hos, hil]
      | some ys =>
        cases h₂ : seqOpt l₂ with
        | none =>
          have hil : seqOpt (os ++ l₂) = none := by rw [ih, hos, h₂]; rfl
          simp [seqOpt, hos, h₂, hil]
        | some zs =>
          have hil : seqOpt (os ++ l₂) = some (ys ++ zs) := by
            rw [ih, hos, h₂]; rfl
          simp [seqOpt, hos, h₂, hil]

/-- Inversion of a successful `renderScanTable`. -/
theorem renderScanTable_some {results : List ScanRow} {g : Grid}
    (h : renderScanTable results = some g) :
    g.header = scanHeader ∧
      ∃ rs, seqOpt (results.map scanRowCells) = some rs ∧ g.rows = rs := by
  unfold renderScanTable at h
  obtain ⟨rs, hrs, hg⟩ := Option.map_eq_some'.mp h
  subst hg
  exact ⟨rfl, rs, hrs, rfl⟩

/-- Inversion of a successful `renderScanTableP0`. -/
theorem renderScanTableP0_some {results : List ScanRow} {g : Grid}
    (h : renderScanTableP0 results = some g) :
    g.header = scanHeader ∧
      ∃ rs, seqOpt (results.map scanRowCells) = some rs ∧ g.rows = rs := by
  unfold renderScanTableP0 at h
  obtain ⟨rs, hrs, hg⟩ := Option.map_eq_some'.mp h
  subst hg
  exact ⟨rfl, rs, hrs, rfl⟩

/-- Inversion of a successful `renderSummaryTable`. -/
theorem renderSummaryTable_some {data : List PortRow} {bench : Option PortRow}
    {g : Grid} (h : renderSummaryTable data bench = some g) :
    g.header = summaryHeader data bench ∧
      ∃ rs, seqOpt (METRICS.map (summaryRowCells data bench)) = some rs ∧
        g.rows = rs := by
  unfold renderSummaryTable at h
  obtain ⟨rs, hrs, hg⟩ := Option.map_eq_some'.mp h
  subst hg
  exact ⟨rfl, rs, hrs, rfl⟩

/-- Shape of a successful scan body row: the label cell followed by one
cell per metric. -/
theorem scanRowCells_some {r : ScanRow} {row : List String}
    (h : scanRowCells r = some row) :
    ∃ cs, seqOpt (METRICS.map (scanCell r)) = some cs ∧
      row = scanLabel r :: cs ∧ cs.length = METRICS.length := by
  unfold scanRowCells at h
  obtain ⟨cs, hcs, hrow⟩ := Option.map_eq_some'.mp h
  refine ⟨cs, hcs, hrow.symm, ?_⟩
  rw [seqOpt_length hcs, List.length_map]

/-- The two `forEach` passes of a summary body row (portfolios, then the
optional benchmark) produce the cells of the appended row list. -/
theorem summaryRowCells_append_form (data : List PortRow)
    (bench : Option PortRow) (m : MetricDef) :
    summaryRowCells data bench m =
      (seqOpt ((data ++ bench.toList).map (summaryCell m))).map
        (m.label :: ·) := by
  cases bench with
  | none =>
    cases h : seqOpt (data.map (summaryCell m)) <;>
      simp [summaryRowCells, Option.toList, h]
  | some b =>
    rw [Option.toList, List.map_append, seqOpt_append]
    cases h : seqOpt (data.map (summaryCell m)) with
    | none => simp [summaryRowCells, h]
    | some cs =>
      cases hb : summaryCell m b with
      | none => simp [summaryRowCells, h, hb, seqOpt]
      | some c => simp [summaryRowCells, h, hb, seqOpt]

/-- Shape of a successful summary body row: the metric label followed by
one cell per portfolio and one for the benchmark when present. -/
theorem summaryRowCells_some {data : List PortRow} {bench : Option PortRow}
    {m : MetricDef} {row : List String}
    (h : summaryRowCells data bench m = some row) :
    ∃ cs, seqOpt ((data ++ bench.toList).map (summaryCell m)) = some cs ∧
      row = m.label :: cs ∧
      cs.length = data.length + bench.toList.length := by
  rw [summaryRowCells_append_form] at h
  obtain ⟨cs, hcs, hrow⟩ := Option.map_eq_some'.mp h
  refine ⟨cs, hcs, hrow.symm, ?_⟩
  rw [seqOpt_length hcs, List.length_map, List.length_append]

/-- The summary header lists the corner cell, the portfolio names in order
and the benchmark name last. -/
theorem summaryHeader_eq (data : List PortRow) (bench : Option PortRow) :
    summaryHeader data bench =
      "指標" :: (data ++ bench.toList).map (·.name) := by
  cases bench <;> simp [summaryHeader, Option.toList]

/-- A string ending in the percent sign is never the string `"N/A"`. -/
theorem append_percent_ne_NA (s : String) : s ++ "%" ≠ "N/A" := by
  intro h
  have hdata : s.data ++ ['%'] = ['N', '/', 'A'] := by
    have := congrArg String.data h
    rwa [String.data_append] at this
  have hlast : (['N', '/', 'A'] : List Char).getLast? = some '%' := by
    rw [← hdata]
    exact List.getLast?_concat s.data
  simp at hlast

/-- With enough fuel, a number below `10^f` renders to at most `f` digits. -/
theorem natToDigitsAux_len :
    ∀ (fuel n f : ℕ), n < fuel → 0 < f → n < 10 ^ f →
      (natToDigitsAux fuel n).length ≤ f := by
  intro fuel
  induction fuel with
  | zero => intro n f hn _ _; exact absurd hn (Nat.not_lt_zero n)
  | succ fuel ih =>
    intro n f hn hf hpow
    by_cases h10 : n < 10
    · simp only [natToDigitsAux, if_pos h10, List.length_cons,
        List.length_nil]
      exact hf
    · have hge : 10 ≤ n := le_of_not_lt h10
      have hf2 : 2 ≤ f := by
        rcases f with _ | _ | f
        · exact absurd hf (by omega)
        · exact absurd hpow (by simpa using h10)
        · omega
      have hdiv : n / 10 < fuel :=
        lt_of_lt_of_le (Nat.div_lt_self (by omega) (by norm_num)) (by omega)
      have hpow' : n / 10 < 10 ^ (f - 1) := by
        rw [Nat.div_lt_iff_lt_mul (by norm_num : 0 < 10)]
        calc n < 10 ^ f := hpow
          _ = 10 ^ (f - 1) * 10 := by
            rw [← pow_succ]
            congr 1
            omega
      have hrec := ih (n / 10) (f - 1) hdiv (by omega) hpow'
      simp only [natToDigitsAux, if_neg h10, List.length_append,
        List.length_cons, List.length_nil]
      omega

/-- A number below `10^f` (with `0 < f`) renders to at most `f` digits. -/
theorem natToDigits_len_le {n f : ℕ} (hf : 0 < f) (h : n < 10 ^ f) :
    (natToDigits n).length ≤ f :=
  natToDigitsAux_len (n + 1) n f (Nat.lt_succ_self n) hf h

/-- Padding a short digit list to width `f` gives length exactly `f`. -/
theorem padZeros_length {s : List Char} {f : ℕ} (h : s.length ≤ f) :
    (padZeros s f).length = f := by
  simp only [padZeros, List.length_append, List.length_replicate]
  omega

/-- The body row of a rendered scan table at the index of a given result. -/
theorem renderScan_row_of_result {results : List ScanRow} {g : Grid} {i : ℕ}
    {r : ScanRow} (h : renderScanTable results = some g)
    (hr : results.get? i = some r) :
    ∃ cs, seqOpt (METRICS.map (scanCell r)) = some cs ∧
      g.rows.get? i = some (scanLabel r :: cs) := by
  obtain ⟨hh, rs, hrs, hrows⟩ := renderScanTable_some h
  have hgot : (results.map scanRowCells).get? i = some (scanRowCells r) := by
    rw [List.get?_map, hr]; rfl
  have hseq := seqOpt_get hrs i
  rw [hgot] at hseq
  cases hrsi : rs.get? i with
  | none => rw [hrsi] at hseq; simp at hseq
  | some row =>
    rw [hrsi] at hseq
    simp only [Option.map_some'] at hseq
    obtain ⟨cs, hcs, hrow_eq, _⟩ := scanRowCells_some (Option.some.inj hseq)
    exact ⟨cs, hcs, by rw [hrows, hrsi, hrow_eq]⟩

/-- The cell of a successful scan body row at the index of a metric. -/
theorem scan_cell_at {r : ScanRow} {cs : List String} {j : ℕ} {m : MetricDef}
    (hcs : seqOpt (METRICS.map (scanCell r)) = some cs)
    (hm : METRICS.get? j = some m) :
    ∃ c, cs.get? j = some c ∧ scanCell r m = some c := by
  have hseq := seqOpt_get hcs j
  rw [List.get?_map, hm] at hseq
  simp only [Option.map_some'] at hseq
  cases hcj : cs.get? j with
  | none => rw [hcj] at hseq; simp at hseq
  | some c =>
    rw [hcj] at hseq
    simp only [Option.map_some'] at hseq
    exact ⟨c, rfl, Option.some.inj hseq⟩

/-- The body row of a rendered summary table at the index of a metric. -/
theorem renderSummary_row_of_metric {data : List PortRow}
    {bench : Option PortRow} {g : Grid} {j : ℕ} {m : MetricDef}
    {row : List String} (h : renderSummaryTable data bench = some g)
    (hm : METRICS.get? j = some m) (hrow : g.rows.get? j = some row) :
    ∃ cs, seqOpt ((data ++ bench.toList).map (summaryCell m)) = some cs ∧
      row = m.label :: cs := by
  obtain ⟨hh, rs, hrs, hrows⟩ := renderSummaryTable_some h
  rw [hrows] at hrow
  have hgot : (METRICS.map (summaryRowCells data bench)).get? j =
      some (some row) := by
    rw [seqOpt_get hrs j, hrow]; rfl
  rw [List.get?_map, hm] at hgot
  simp only [Option.map_some'] at hgot
  obtain ⟨cs, hcs, hrow_eq, _⟩ := summaryRowCells_some (Option.some.inj hgot)
  exact ⟨cs, hcs, hrow_eq⟩

/-- The cell of a successful summary body row at the index of a portfolio. -/
theorem summary_cell_at {m : MetricDef} {data : List PortRow}
    {bench : Option PortRow} {cs : List String} {i : ℕ} {p : PortRow}
    (hcs : seqOpt ((data ++ bench.toList).map (summaryCell m)) = some cs)
    (hp : data.get? i = some p) :
    ∃ c, cs.get? i = some c ∧ summaryCell m p = some c := by
  obtain ⟨hi, _⟩ := List.get?_eq_some.mp hp
  have hseq := seqOpt_get hcs i
  rw [List.map_append,
    List.get?_append (by rw [List.length_map]; exact hi),
    List.get?_map, hp] at hseq
  simp only [Option.map_some'] at hseq
  cases hci : cs.get? i with
  | none => rw [hci] at hseq; simp at hseq
  | some c =>
    rw [hci] at hseq
    simp only [Option.map_some'] at hseq
    exact ⟨c, rfl, Option.some.inj hseq⟩

/-- C2: for every ratio-class metric and every input designated by the
per-metric null policy (a non-finite number for `sharpe_ratio`,
`sortino_ratio` and `custom_score`; `null` for `beta`), the formatter
returns exactly `"N/A"` and never throws. -/
theorem ratio_metrics_null_policy_NA :
    (∀ x : JNum, x.isFin = false →
      fmtApply "sharpe_ratio" (.num x) = some "N/A" ∧
      fmtApply "sortino_ratio" (.num x) = some "N/A" ∧
      fmtApply "custom_score" (.num x) = some "N/A") ∧
    fmtApply "beta" .null = some "N/A" := by
  refine ⟨?_, by decide⟩
  intro x hx
  cases x with
  | fin q => simp [JNum.isFin] at hx
  | nan => exact ⟨by decide, by decide, by decide⟩
  | inf => exact ⟨by decide, by decide, by decide⟩
  | negInf => exact ⟨by decide, by decide, by decide⟩

/-- Witness for C2 at the concrete non-finite input `NaN`. -/
theorem ratio_metrics_null_policy_NA_witness :
    JNum.nan.isFin = false ∧
      fmtApply "sharpe_ratio" (.num .nan) = some "N/A" :=
  ⟨by decide, (ratio_metrics_null_policy_NA.1 .nan (by decide)).1⟩

/-- C3: every percentage-class formatter (`cagr`, `volatility`, `mdd`,
`alpha`) maps a finite value `q` to `(q*100).toFixed(2)` suffixed with
`"%"`; the rendered digits are those of an integer within `1/2` of
`|q*100| * 10^2` (the 2-decimal rounding); and `cagr = 0.1534` formats
to `"15.34%"`. -/
theorem percent_metrics_format (q : ℚ) :
    fmtApply "cagr" (.num (.fin q)) = some (toFixedRat (q * 100) 2 ++ "%") ∧
    fmtApply "volatility" (.num (.fin q)) =
      some (toFixedRat (q * 100) 2 ++ "%") ∧
    fmtApply "mdd" (.num (.fin q)) = some (toFixedRat (q * 100) 2 ++ "%") ∧
    fmtApply "alpha" (.num (.fin q)) = some (toFixedRat (q * 100) 2 ++ "%") ∧
    toFixedRat (q * 100) 2 = (if (q * 100).num < 0 then "-" else "") ++
      natFixedStr (toFixedScaled (q * 100) 2) 2 ∧
    |((toFixedScaled (q * 100) 2 : ℚ)) - |q * 100| * (10 : ℚ) ^ 2| ≤ 1 / 2 ∧
    fmtApply "cagr" (.num (.fin (0.1534 : ℚ))) = some "15.34%" := by
  refine ⟨?_, ?_, ?_, ?_, rfl, ?_, ?_⟩
  · simp [fmtApply, FMT, fmtPercent, jsToNumber, JNum.mul100_fin, toFixedNum]
  · simp [fmtApply, FMT, fmtPercent, jsToNumber, JNum.mul100_fin, toFixedNum]
  · simp [fmtApply, FMT, fmtPercent, jsToNumber, JNum.mul100_fin, toFixedNum]
  · simp [fmtApply, FMT, fmtAlpha, jsToNumber, JNum.mul100_fin, toFixedNum]
  · have hcast : ((toFixedScaled (q * 100) 2 : ℚ)) =
        ((⌊|q * 100| * (10 : ℚ) ^ 2 + 1 / 2⌋ : ℤ) : ℚ) := by
      exact_mod_cast toFixedScaled_eq_floor (q * 100) 2
    rw [hcast]
    exact floor_add_half_close (|q * 100| * (10 : ℚ) ^ 2)
  · have h0 : (0.1534 : ℚ) = Rat.divInt 1534 10000 := by
      rw [Rat.divInt_eq_div]; norm_num
    rw [h0]
    decide

/-- C6: the `custom_score` formatter maps a finite value `q` to
`q.toFixed(4)`: a sign, an integer part, and exactly four digits after
the decimal point, with no suffix; `1.23456` formats to `"1.2346"`. -/
theorem custom_score_fixed4 (q : ℚ) :
    fmtApply "custom_score" (.num (.fin q)) = some (toFixedRat q 4) ∧
    (∃ ip fp : List Char,
      toFixedRat q 4 = (if q.num < 0 then "-" else "") ++
        (String.mk ip ++ "." ++ String.mk fp) ∧ fp.length = 4) ∧
    fmtApply "custom_score" (.num (.fin (1.23456 : ℚ))) = some "1.2346" := by
  refine ⟨?_, ?_, ?_⟩
  · simp [fmtApply, FMT, fmtCustomScore, jsIsFinite, jsToNumber, JNum.isFin,
      jsToFixed, toFixedNum]
  · refine ⟨natToDigits (toFixedScaled q 4 / 10 ^ 4),
      padZeros (natToDigits (toFixedScaled q 4 % 10 ^ 4)) 4, rfl, ?_⟩
    exact padZeros_length (natToDigits_len_le (by norm_num)
      (Nat.mod_lt _ (by norm_num)))
  · have h0 : (1.23456 : ℚ) = Rat.divInt 123456 100000 := by
      rw [Rat.divInt_eq_div]; norm_num
    rw [h0]
    decide

/-- C9: the `beta` formatter only tests `v !== null`, so every non-null
non-finite number formats as its `toFixed` string (`"NaN"`, `"Infinity"`,
`"-Infinity"`) and not as `"N/A"`; the other three ratio-class formatters
map the same inputs to `"N/A"`, making `beta` the only ratio-class metric
whose non-finite inputs escape `"N/A"`. -/
theorem beta_nonfinite_toFixed :
    (∀ x : JNum, x.isFin = false →
      fmtApply "beta" (.num x) = some (toFixedNum x 2) ∧
      fmtApply "beta" (.num x) ≠ some "N/A" ∧
      fmtApply "sharpe_ratio" (.num x) = some "N/A" ∧
      fmtApply "sortino_ratio" (.num x) = some "N/A" ∧
      fmtApply "custom_score" (.num x) = some "N/A") ∧
    fmtApply "beta" (.num .nan) = some "NaN" ∧
    fmtApply "beta" (.num .inf) = some "Infinity" ∧
    fmtApply "beta" (.num .negInf) = some "-Infinity" := by
  refine ⟨?_, by decide, by decide, by decide⟩
  intro x hx
  cases x with
  | fin q => simp [JNum.isFin] at hx
  | nan => exact ⟨by decide, by decide, by decide, by decide, by decide⟩
  | inf => exact ⟨by decide, by decide, by decide, by decide, by decide⟩
  | negInf => exact ⟨by decide, by decide, by decide, by decide, by decide⟩

/-- Witness for C9 at the concrete non-finite input `NaN`. -/
theorem beta_nonfinite_toFixed_witness :
    JNum.nan.isFin = false ∧
      fmtApply "beta" (.num .nan) = some (toFixedNum .nan 2) :=
  ⟨by decide, (beta_nonfinite_toFixed.1 .nan (by decide)).1⟩

/-- C10: the `cagr`, `volatility` and `mdd` formatters are total over all
numbers: every number `x` (finite or not) formats as
`(x*100).toFixed(2)` suffixed with `"%"` (so `NaN` gives `"NaN%"` and
`Infinity` gives `"Infinity%"`), never throwing and never `"N/A"`;
`mul100` on a finite value is multiplication by 100. -/
theorem percent_metrics_total (x : JNum) :
    fmtApply "cagr" (.num x) = some (toFixedNum x.mul100 2 ++ "%") ∧
    fmtApply "volatility" (.num x) = some (toFixedNum x.mul100 2 ++ "%") ∧
    fmtApply "mdd" (.num x) = some (toFixedNum x.mul100 2 ++ "%") ∧
    fmtApply "cagr" (.num x) ≠ some "N/A" ∧
    fmtApply "volatility" (.num x) ≠ some "N/A" ∧
    fmtApply "mdd" (.num x) ≠ some "N/A" ∧
    (∀ q : ℚ, JNum.mul100 (.fin q) = .fin (q * 100)) ∧
    fmtApply "cagr" (.num .nan) = some "NaN%" ∧
    fmtApply "cagr" (.num .inf) = some "Infinity%" := by
  have heq : ∀ k, FMT k = some fmtPercent →
      fmtApply k (.num x) = some (toFixedNum x.mul100 2 ++ "%") := by
    intro k hk
    rw [fmtApply, hk]
    rfl
  have hne : ∀ k, FMT k = some fmtPercent →
      fmtApply k (.num x) ≠ some "N/A" := by
    intro k hk hcon
    rw [heq k hk] at hcon
    exact append_percent_ne_NA _ (Option.some.inj hcon)
  exact ⟨heq "cagr" rfl, heq "volatility" rfl,
    heq "mdd" rfl, hne "cagr" rfl,
    hne "volatility" rfl, hne "mdd" rfl,
    JNum.mul100_fin, by decide, by decide⟩

/-- C4: every produced grid is rectangular — the header has one corner
cell plus one cell per metric (scan renderers) or per entity plus
benchmark (summary renderer), and every body row has exactly the header's
cell count. -/
theorem grids_rectangular :
    (∀ results g, renderScanTable results = some g →
      g.header.length = 1 + METRICS.length ∧
      ∀ row ∈ g.rows, row.length = g.header.length) ∧
    (∀ results g, renderScanTableP0 results = some g →
      g.header.length = 1 + METRICS.length ∧
      ∀ row ∈ g.rows, row.length = g.header.length) ∧
    (∀ data bench g, renderSummaryTable data bench = some g →
      g.header.length = 1 + (data.length + bench.toList.length) ∧
      ∀ row ∈ g.rows, row.length = g.header.length) := by
  have hscan : ∀ (results : List ScanRow) (g : Grid),
      renderScanTable results = some g →
      g.header.length = 1 + METRICS.length ∧
      ∀ row ∈ g.rows, row.length = g.header.length := by
    intro results g h
    obtain ⟨hh, rs, hrs, hrows⟩ := renderScanTable_some h
    have hhl : g.header.length = 1 + METRICS.length := by
      rw [hh]
      simp only [scanHeader, List.length_cons, List.length_map]
      omega
    refine ⟨hhl, ?_⟩
    intro row hrow
    rw [hrows] at hrow
    obtain ⟨i, hi⟩ := List.mem_iff_get?.mp hrow
    have hseq := seqOpt_get hrs i
    rw [hi] at hseq
    simp only [Option.map_some'] at hseq
    rw [List.get?_map] at hseq
    obtain ⟨r, hr, hcells⟩ := Option.map_eq_some'.mp hseq
    obtain ⟨cs, _, hrow_eq, hlen⟩ := scanRowCells_some hcells
    rw [hrow_eq, hhl]
    simp only [List.length_cons, hlen]
    omega
  refine ⟨hscan, fun results g h => hscan results g h, ?_⟩
  intro data bench g h
  obtain ⟨hh, rs, hrs, hrows⟩ := renderSummaryTable_some h
  have hhl : g.header.length = 1 + (data.length + bench.toList.length) := by
    rw [hh, summaryHeader_eq]
    simp only [List.length_cons, List.length_map, List.length_append]
    omega
  refine ⟨hhl, ?_⟩
  intro row hrow
  rw [hrows] at hrow
  obtain ⟨j, hj⟩ := List.mem_iff_get?.mp hrow
  have hseq := seqOpt_get hrs j
  rw [hj] at hseq
  simp only [Option.map_some'] at hseq
  rw [List.get?_map] at hseq
  obtain ⟨m, hm, hcells⟩ := Option.map_eq_some'.mp hseq
  obtain ⟨cs, _, hrow_eq, hlen⟩ := summaryRowCells_some hcells
  rw [hrow_eq, hhl]
  simp only [List.length_cons, hlen]
  omega

/-- Witness for C4 on a concrete one-row scan render. -/
theorem grids_rectangular_witness :
    renderScanTable [sRowNote] = some gScanNote ∧
    (gScanNote.header.length = 1 + METRICS.length ∧
      ∀ row ∈ gScanNote.rows, row.length = gScanNote.header.length) :=
  ⟨by decide, grids_rectangular.1 [sRowNote] gScanNote (by decide)⟩

/-- C5: output order equals input order with no sorting — the summary
header lists the corner cell, then the portfolio names in input order with
the benchmark name last; each summary body row lists the metric label,
then the cells of the portfolios in input order with the benchmark cell
last; the scan header lists the metric labels in `METRICS` order and the
scan body rows follow the input results index by index. -/
theorem render_order_preserved :
    (∀ data bench g, renderSummaryTable data bench = some g →
      g.header = "指標" :: (data ++ bench.toList).map (·.name) ∧
      ∀ j m row, METRICS.get? j = some m → g.rows.get? j = some row →
        ∃ cs, seqOpt ((data ++ bench.toList).map (summaryCell m)) = some cs ∧
          row = m.label :: cs) ∧
    (∀ results g, renderScanTable results = some g →
      g.header = "Ticker" :: METRICS.map (·.label) ∧
      ∀ i, (results.map scanRowCells).get? i = (g.rows.get? i).map some) := by
  constructor
  · intro data bench g h
    refine ⟨?_, ?_⟩
    · rw [(renderSummaryTable_some h).1, summaryHeader_eq]
    · intro j m row hm hrow
      exact renderSummary_row_of_metric h hm hrow
  · intro results g h
    obtain ⟨hh, rs, hrs, hrows⟩ := renderScanTable_some h
    refine ⟨by rw [hh]; rfl, ?_⟩
    intro i
    rw [hrows]
    exact seqOpt_get hrs i

/-- Witness for C5 on a concrete summary render with a benchmark. -/
theorem render_order_preserved_witness :
    renderSummaryTable [pRowNoCagr] (some pRowOnes) = some gSummaryAB ∧
    ∃ cs, seqOpt (([pRowNoCagr] ++ (some pRowOnes : Option PortRow).toList).map
        (summaryCell ⟨"cagr", "年化報酬率 (CAGR)"⟩)) = some cs ∧
      (["年化報酬率 (CAGR)", "NaN%", "100.00%"] : List String) =
        "年化報酬率 (CAGR)" :: cs :=
  ⟨by decide,
   (render_order_preserved.1 [pRowNoCagr] (some pRowOnes) gSummaryAB
       (by decide)).2 0 ⟨"cagr", "年化報酬率 (CAGR)"⟩
     ["年化報酬率 (CAGR)", "NaN%", "100.00%"] (by decide) (by decide)⟩

/-- C8: rendering is deterministic — two renders of identical inputs
produce grids with equal headers and element-wise equal cells; the
embedded renderers read nothing but their arguments. -/
theorem render_deterministic :
    (∀ results g₁ g₂, renderScanTable results = some g₁ →
      renderScanTable results = some g₂ →
      g₁.header = g₂.header ∧
      ∀ i j, (g₁.rows.get? i).bind (fun row => row.get? j) =
        (g₂.rows.get? i).bind (fun row => row.get? j)) ∧
    (∀ data bench g₁ g₂, renderSummaryTable data bench = some g₁ →
      renderSummaryTable data bench = some g₂ →
      g₁.header = g₂.header ∧
      ∀ i j, (g₁.rows.get? i).bind (fun row => row.get? j) =
        (g₂.rows.get? i).bind (fun row => row.get? j)) := by
  constructor
  · intro results g₁ g₂ h₁ h₂
    cases Option.some.inj (h₁.symm.trans h₂)
    exact ⟨rfl, fun i j => rfl⟩
  · intro data bench g₁ g₂ h₁ h₂
    cases Option.some.inj (h₁.symm.trans h₂)
    exact ⟨rfl, fun i j => rfl⟩

/-- Witness for C8 on a concrete repeated scan render. -/
theorem render_deterministic_witness :
    gScanNote.header = gScanNote.header ∧
    ∀ i j, (gScanNote.rows.get? i).bind (fun row => row.get? j) =
      (gScanNote.rows.get? i).bind (fun row => row.get? j) :=
  render_deterministic.1 [sRowNote] gScanNote gScanNote (by decide) (by decide)

/-- C1 counterexample: in `renderSummaryTable` an `undefined` value does
not render as `"—"` — with `cagr` absent from the row, the CAGR cell of
the rendered grid is `"NaN%"` (the formatter was invoked on `undefined`),
refuting the claim for the third rendering function. -/
theorem summary_undef_not_placeholder :
    (renderSummaryTable [pRowNoCagr] none).bind
        (fun g => (g.rows.get? 0).bind (fun row => row.get? 1)) =
      some "NaN%" ∧
    ("NaN%" : String) ≠ "—" := by
  exact ⟨by decide, by decide⟩

/-- C1 (amended): in the two `renderScanTable` functions an `undefined`
metric value renders as the literal `"—"` without invoking the formatter;
in `renderSummaryTable` the formatter is invoked unconditionally on the
looked-up value, so an `undefined` value yields the formatter's output on
`undefined` (`"NaN%"` for `cagr`, a thrown `TypeError` for `beta`) and
never `"—"`. -/
theorem undef_cell_placeholder :
    (∀ results g i r j m, renderScanTable results = some g →
      results.get? i = some r → METRICS.get? j = some m →
      r.vals.get m.key = .undefined →
      ∃ row, g.rows.get? i = some row ∧ row.get? (j + 1) = some "—") ∧
    (∀ results g i r j m, renderScanTableP0 results = some g →
      results.get? i = some r → METRICS.get? j = some m →
      r.vals.get m.key = .undefined →
      ∃ row, g.rows.get? i = some row ∧ row.get? (j + 1) = some "—") ∧
    (∀ data bench g j m i p row, renderSummaryTable data bench = some g →
      METRICS.get? j = some m → data.get? i = some p →
      g.rows.get? j = some row →
      row.get? (i + 1) = fmtApply m.key (p.vals.get m.key)) ∧
    fmtApply "cagr" .undefined = some "NaN%" ∧
    fmtApply "beta" .undefined = none := by
  have hscan : ∀ (results : List ScanRow) (g : Grid) (i : ℕ) (r : ScanRow)
      (j : ℕ) (m : MetricDef), renderScanTable results = some g →
      results.get? i = some r → METRICS.get? j = some m →
      r.vals.get m.key = .undefined →
      ∃ row, g.rows.get? i = some row ∧ row.get? (j + 1) = some "—" := by
    intro results g i r j m h hr hm hundef
    obtain ⟨cs, hcs, hrow⟩ := renderScan_row_of_result h hr
    obtain ⟨c, hcj, hcell⟩ := scan_cell_at hcs hm
    have hdash : c = "—" := by
      rw [scanCell, hundef] at hcell
      simp at hcell
      exact hcell.symm
    exact ⟨scanLabel r :: cs, hrow,
      by rw [List.get?_cons_succ, hcj, hdash]⟩
  refine ⟨hscan, fun results g i r j m h => hscan results g i r j m h,
    ?_, by decide, by decide⟩
  intro data bench g j m i p row h hm hp hrow
  obtain ⟨cs, hcs, hrow_eq⟩ := renderSummary_row_of_metric h hm hrow
  obtain ⟨c, hci, hcell⟩ := summary_cell_at hcs hp
  rw [hrow_eq, List.get?_cons_succ, hci]
  exact hcell.symm

/-- Witness for C1 (amended) on concrete one-row renders with `cagr`
absent: the scan cell is `"—"`, the summary cell is the formatter's
output on `undefined`. -/
theorem undef_cell_placeholder_witness :
    (∃ row, gScanNoCagr.rows.get? 0 = some row ∧
      row.get? 1 = some "—") ∧
    (["年化報酬率 (CAGR)", "NaN%", "100.00%"] : List String).get? 1 =
      fmtApply "cagr" (pRowNoCagr.vals.get "cagr") :=
  ⟨undef_cell_placeholder.1 [sRowNoCagr] gScanNoCagr 0 sRowNoCagr 0
      ⟨"cagr", "年化報酬率 (CAGR)"⟩ (by decide) (by decide) (by decide)
      (by decide),
   undef_cell_placeholder.2.2.1 [pRowNoCagr] (some pRowOnes) gSummaryAB 0
      ⟨"cagr", "年化報酬率 (CAGR)"⟩ 0 pRowNoCagr
      ["年化報酬率 (CAGR)", "NaN%", "100.00%"] (by decide) (by decide)
      (by decide) (by decide)⟩

/-- C7: in both scan renderers the label cell is the ticker with the
caller-supplied note appended directly after it, no separator; when the
note is absent the cell is the ticker alone. -/
theorem scan_label_note_append :
    (∀ results g i r, renderScanTable results = some g →
      results.get? i = some r →
      ∃ row, g.rows.get? i = some row ∧
        row.get? 0 = some (r.ticker ++
          (match r.note with | some s => s | none => "")) ∧
        (r.note = none → row.get? 0 = some r.ticker)) ∧
    (∀ results g i r, renderScanTableP0 results = some g →
      results.get? i = some r →
      ∃ row, g.rows.get? i = some row ∧
        row.get? 0 = some (r.ticker ++
          (match r.note with | some s => s | none => "")) ∧
        (r.note = none → row.get? 0 = some r.ticker)) := by
  have hscan : ∀ (results : List ScanRow) (g : Grid) (i : ℕ) (r : ScanRow),
      renderScanTable results = some g → results.get? i = some r →
      ∃ row, g.rows.get? i = some row ∧
        row.get? 0 = some (r.ticker ++
          (match r.note with | some s => s | none => "")) ∧
        (r.note = none → row.get? 0 = some r.ticker) := by
    intro results g i r h hr
    obtain ⟨cs, hcs, hrow⟩ := renderScan_row_of_result h hr
    refine ⟨scanLabel r :: cs, hrow, rfl, ?_⟩
    intro hnone
    rw [List.get?_cons_zero, scanLabel, hnone, String.append_empty]
  exact ⟨hscan, fun results g i r h => hscan results g i r h⟩

/-- Witness for C7 on concrete rows with and without a note. -/
theorem scan_label_note_append_witness :
    (∃ row, gScanNote.rows.get? 0 = some row ∧
      row.get? 0 = some ("SPY" ++
        (match (some "*" : Option String) with
          | some s => s | none => "")) ∧
      ((some "*" : Option String) = none → row.get? 0 = some "SPY")) ∧
    (∃ row, gScanNoCagr.rows.get? 0 = some row ∧
      row.get? 0 = some ("QQQ" ++
        (match (none : Option String) with | some s => s | none => "")) ∧
      ((none : Option String) = none → row.get? 0 = some "QQQ")) :=
  ⟨scan_label_note_append.1 [sRowNote] gScanNote 0 sRowNote (by decide)
      (by decide),
   scan_label_note_append.1 [sRowNoCagr] gScanNoCagr 0 sRowNoCagr
      (by decide) (by decide)⟩
